import Mathlib

/-!
Verification of the MMSFSDAPP backend (military asset management system).

The definitions below are a shallow embedding of the backend source:
`MMS-backend/models/User.js` and the two routers in
`MMS-backend/routes/auth.js` (the auth router and the dashboard router).
External collaborators (bcrypt, jwt, the Mongo storage layer, Express) are
modelled as explicit parameters or as in-memory lists:

* a user collection is a `List StoredUser`; `Document.save` on a fetched
  user is `saveUser` (replace by username, usernames being unique per the
  schema);
* `bcrypt.compare` is a parameter `bc : String → String → Except String Bool`
  where `Except.error` models the promise rejecting (throwing);
* `jwt.sign` is a parameter `newToken : String`;
* an `ActivityLog(...).save()` call is a parameter
  `logSave : Except String Unit`: `.error` models the save throwing; a route
  that wraps the save in its own try/catch ignores the outcome, a route that
  does not lets the error reach the outer catch and become its error
  response;
* Mongo query objects become Boolean predicates over the record lists,
  `sort({k : -1})` becomes an insertion sort descending on the key, and
  `limit(n)` becomes `List.take n`.

All numeric record fields are `Int` (JS numbers holding integers);
timestamps are `Int` milliseconds.
-/

namespace MMS

/-- The role enum of the User schema (`models/User.js`). -/
inductive Role where
  | Admin
  | BaseCommander
  | LogisticsOfficer
deriving DecidableEq, Repr

/-- A persisted user document (`models/User.js` schema). The embedded
`tokens` array of `\x7b token : String \x7d` subdocuments is flattened to a
`List String`. -/
structure StoredUser where
  username : String
  password : String
  email : String
  fullName : String
  role : Role
  assignedBase : Option String
  active : Bool
  tokens : List String
deriving DecidableEq, Repr

/-- `UserSchema.statics.findByCredentials` (`models/User.js` lines 51-96):
look the user up by username, reject missing or inactive accounts, compare
the password with `bcrypt.compare`, and if the comparison itself throws,
fall back to direct string equality with the stored password field.
`bc` models `bcrypt.compare`; `.error` models it throwing. -/
def findByCredentials (bc : String → String → Except String Bool)
    (db : List StoredUser) (username password : String) :
    Except String StoredUser :=
  match db.find? (fun u => u.username == username) with
  | none => .error "Invalid username or password"
  | some user =>
    if !user.active then .error "User account is inactive"
    else
      let isMatch :=
        match bc password user.password with
        | .ok b => b
        | .error _ => password == user.password
      if !isMatch then .error "Invalid username or password"
      else .ok user

/-- Persisting a fetched-and-mutated user document (`user.save()`): replace
the document with the same username. Usernames are unique in the schema. -/
def saveUser (db : List StoredUser) (u : StoredUser) : List StoredUser :=
  db.map (fun x => if x.username == u.username then u else x)

/-- Modelled from the spec: `resolveSession` of §4.1 — the `middleware/auth`
module is required by the routes but absent from the source tree. Given a
bearer token, find the user whose live token set contains it; `none` models
the `Unauthenticated` failure. -/
def resolveSession (db : List StoredUser) (t : String) : Option StoredUser :=
  db.find? (fun u => decide (t ∈ u.tokens))

/-- The token-set update of `POST /api/auth/logout` (`routes/auth.js` line
154): `req.user.tokens = req.user.tokens.filter(token => token.token !==
req.token)`. -/
def logout (u : StoredUser) (t : String) : StoredUser :=
  { u with tokens := u.tokens.filter (fun tk => tk != t) }

/-- The token-set update of `POST /api/auth/logout-all` (`routes/auth.js`
line 185): `req.user.tokens = []`. -/
def logoutAll (u : StoredUser) : StoredUser :=
  { u with tokens := [] }

/-- Response of `POST /api/auth/login` (`routes/auth.js` lines 44-145). -/
inductive LoginResponse where
  | ok (user : StoredUser) (token : String) (message : String)
  | badRequest (error message : String)
  | unauthorized (error message : String)
deriving DecidableEq, Repr

/-- `POST /api/auth/login` (`routes/auth.js` lines 44-145). Missing
username/password (JS falsy, so the empty string) gives a 400; any error
thrown from the lookup or `findByCredentials` is caught and answered with a
401 whose message is always `Invalid username or password`; on success
`generateAuthToken` appends the fresh token (`user.tokens.concat(\x7b token \x7d)`,
`models/User.js` line 44) and saves, and the route responds with the user
and token. Both the success-path and failure-path `ActivityLog` saves sit in
their own try/catch, so `logSave` never influences the outcome. -/
def loginRoute (bc : String → String → Except String Bool)
    (newToken : String) (_logSave : Except String Unit)
    (db : List StoredUser) (username password : String) :
    List StoredUser × LoginResponse :=
  if username == "" || password == "" then
    (db, .badRequest "Login failed" "Username and password are required")
  else
    match db.find? (fun u => u.username == username) with
    | none => (db, .unauthorized "Authentication failed" "Invalid username or password")
    | some _ =>
      match findByCredentials bc db username password with
      | .error _ =>
          (db, .unauthorized "Authentication failed" "Invalid username or password")
      | .ok user =>
          let user' := { user with tokens := user.tokens ++ [newToken] }
          (saveUser db user', .ok user' newToken "Login successful")

/-- Response of the logout routes (`routes/auth.js` lines 152-208). -/
inductive LogoutResponse where
  | ok (message : String)
  | serverError (msg : String)
deriving DecidableEq, Repr

/-- `POST /api/auth/logout` (`routes/auth.js` lines 152-176): filter the
presented token out of the caller's token set and save, then write an
`ActivityLog` entry with no inner try/catch — if that save throws, the outer
catch answers 500 even though the token removal has already been
persisted. -/
def logoutRoute (u : StoredUser) (t : String) (logSave : Except String Unit)
    (db : List StoredUser) : List StoredUser × LogoutResponse :=
  let u' := logout u t
  let db' := saveUser db u'
  match logSave with
  | .error e => (db', .serverError e)
  | .ok _ => (db', .ok "Logged out successfully")

/-- `POST /api/auth/logout-all` (`routes/auth.js` lines 183-208): clear the
caller's token set and save; the `ActivityLog` save is again unguarded. -/
def logoutAllRoute (u : StoredUser) (logSave : Except String Unit)
    (db : List StoredUser) : List StoredUser × LogoutResponse :=
  let u' := logoutAll u
  let db' := saveUser db u'
  match logSave with
  | .error e => (db', .serverError e)
  | .ok _ => (db', .ok "Logged out from all devices successfully")

/-- Response of `POST /api/auth/register` (`routes/auth.js` lines 12-37). -/
inductive RegisterResponse where
  | created (user : StoredUser)
  | clientError (error : String)
deriving DecidableEq, Repr

/-- `POST /api/auth/register` (`routes/auth.js` lines 12-37): save the new
user, then write an `ActivityLog` entry with no inner try/catch — a failure
of either save is answered as a 400. `userSave` models the outcome of
`user.save()` (schema validation and the unique indexes live in the storage
layer). -/
def registerRoute (userSave : Except String Unit)
    (logSave : Except String Unit) (newUser : StoredUser)
    (db : List StoredUser) : List StoredUser × RegisterResponse :=
  match userSave with
  | .error e => (db, .clientError e)
  | .ok _ =>
    let db' := db ++ [newUser]
    match logSave with
    | .error e => (db', .clientError e)
    | .ok _ => (db', .created newUser)

/-- Response of `PUT /api/auth/change-password` (`routes/auth.js` lines
224-253). -/
inductive ChangePwResponse where
  | ok (message : String)
  | clientError (error message : String)
deriving DecidableEq, Repr

/-- `PUT /api/auth/change-password` (`routes/auth.js` lines 224-253): verify
the current password through `findByCredentials`, store the new password
(hashed by the pre-save hook, modelled by `hash`), save, then write an
`ActivityLog` entry with no inner try/catch — a log failure is answered as a
400 even though the new password has already been persisted. -/
def changePasswordRoute (bc : String → String → Except String Bool)
    (hash : String → String) (logSave : Except String Unit)
    (db : List StoredUser) (username currentPassword newPassword : String) :
    List StoredUser × ChangePwResponse :=
  match findByCredentials bc db username currentPassword with
  | .error e => (db, .clientError "Password change failed" e)
  | .ok user =>
    let user' := { user with password := hash newPassword }
    let db' := saveUser db user'
    match logSave with
    | .error e => (db', .clientError "Password change failed" e)
    | .ok _ => (db', .ok "Password changed successfully")

/-- An Asset document (`models/Asset.js` fields read by the dashboard
router). -/
structure Asset where
  base : String
  type : String
  openingBalance : Int
  closingBalance : Int
  purchases : Int
  transferIn : Int
  transferOut : Int
  assigned : Int
  expended : Int
  available : Int
  createdAt : Int
deriving DecidableEq, Repr

/-- A Transfer document (fields read by the dashboard router). -/
structure Transfer where
  assetName : String
  fromBase : String
  toBase : String
  quantity : Int
  status : String
  createdAt : Int
deriving DecidableEq, Repr

/-- A Purchase document (fields read by the dashboard router). -/
structure Purchase where
  assetName : String
  base : String
  assetType : String
  quantity : Int
  status : String
  purchaseDate : Int
  createdAt : Int
deriving DecidableEq, Repr

/-- An Assignment document (fields read by the dashboard router). -/
structure Assignment where
  assetName : String
  base : String
  assetType : String
  quantity : Int
  assignedTo : String
  status : String
  startDate : Int
  createdAt : Int
deriving DecidableEq, Repr

/-- An Expenditure document (fields read by the dashboard router). -/
structure Expenditure where
  assetName : String
  base : String
  assetType : String
  quantity : Int
  reason : String
  expenditureDate : Int
  createdAt : Int
deriving DecidableEq, Repr

/-- The query string of `GET /api/dashboard`: `base`, `assetType`,
`startDate`, `endDate` (`routes/auth.js` dashboard router line 272); absent
parameters are `none`, dates already parsed to timestamps. -/
structure Query where
  base : Option String
  assetType : Option String
  startDate : Option Int
  endDate : Option Int
deriving DecidableEq, Repr

/-- The persisted domain collections the dashboard reads. -/
structure Db where
  assets : List Asset
  transfers : List Transfer
  purchases : List Purchase
  assignments : List Assignment
  expenditures : List Expenditure
deriving Repr

/-- The `summary` object of the dashboard response. -/
structure Summary where
  totalAssets : Nat
  totalOpeningBalance : Int
  totalClosingBalance : Int
  totalPurchases : Int
  totalTransferIn : Int
  totalTransferOut : Int
  totalAssigned : Int
  totalExpended : Int
  totalAvailable : Int
deriving DecidableEq, Repr

/-- One group of the `assetsByType` mapping. -/
structure TypeGroup where
  type : String
  count : Nat
  openingBalance : Int
  closingBalance : Int
  assigned : Int
  available : Int
deriving DecidableEq, Repr

/-- The `dateMatch` filter (dashboard router lines 281-285): `createdAt`
between the given bounds, each bound only when supplied. -/
def dateOk (q : Query) (t : Int) : Bool :=
  (match q.startDate with | some s => decide (s ≤ t) | none => true) &&
  (match q.endDate with | some e => decide (t ≤ e) | none => true)

/-- The `match.base` constraint of the Asset query (dashboard router lines
277 and 287-290): the requested base if given, but overwritten with
`req.user.assignedBase` for a BaseCommander. `none` is an absent constraint
(Mongoose drops `undefined` filter values). -/
def effectiveAssetBase (u : StoredUser) (q : Query) : Option String :=
  if u.role = Role.BaseCommander then u.assignedBase else q.base

/-- The Asset `match` object (dashboard router lines 273-290): base and type
constraints only — `dateMatch` is never merged into it. -/
def assetMatches (u : StoredUser) (q : Query) (a : Asset) : Bool :=
  (match effectiveAssetBase u q with | some b => a.base == b | none => true) &&
  (match q.assetType with | some t => a.type == t | none => true)

/-- The base used by the four recent-record queries (dashboard router lines
343-350, 359-363, 376-380, 393-397): the requested base when given, else
the BaseCommander's assigned base, else unrestricted. -/
def effectiveListBase (u : StoredUser) (q : Query) : Option String :=
  match q.base with
  | some b => some b
  | none => if u.role = Role.BaseCommander then u.assignedBase else none

/-- The `transferMatch` object (dashboard router lines 342-350): the date
range plus an `$or` on `fromBase`/`toBase` for the effective base. -/
def transferMatches (u : StoredUser) (q : Query) (t : Transfer) : Bool :=
  dateOk q t.createdAt &&
  (match effectiveListBase u q with
   | some b => t.fromBase == b || t.toBase == b
   | none => true)

/-- The `purchaseMatch` object (dashboard router lines 358-367): date range,
base equality for the effective base, and the assetType filter. -/
def purchaseMatches (u : StoredUser) (q : Query) (p : Purchase) : Bool :=
  dateOk q p.createdAt &&
  (match effectiveListBase u q with | some b => p.base == b | none => true) &&
  (match q.assetType with | some t => p.assetType == t | none => true)

/-- The `assignmentMatch` object (dashboard router lines 375-384). -/
def assignmentMatches (u : StoredUser) (q : Query) (a : Assignment) : Bool :=
  dateOk q a.createdAt &&
  (match effectiveListBase u q with | some b => a.base == b | none => true) &&
  (match q.assetType with | some t => a.assetType == t | none => true)

/-- The `expenditureMatch` object (dashboard router lines 392-401). -/
def expenditureMatches (u : StoredUser) (q : Query) (e : Expenditure) : Bool :=
  dateOk q e.createdAt &&
  (match effectiveListBase u q with | some b => e.base == b | none => true) &&
  (match q.assetType with | some t => e.assetType == t | none => true)

/-- The zero-initialised `summary` object (dashboard router lines 296-306)
for a matched set of the given size. -/
def initSummary (n : Nat) : Summary :=
  ⟨n, 0, 0, 0, 0, 0, 0, 0, 0⟩

/-- One iteration of the summary accumulation in the `assets.forEach`
(dashboard router lines 313-320). -/
def addToSummary (s : Summary) (a : Asset) : Summary :=
  { s with
    totalOpeningBalance := s.totalOpeningBalance + a.openingBalance
    totalClosingBalance := s.totalClosingBalance + a.closingBalance
    totalPurchases := s.totalPurchases + a.purchases
    totalTransferIn := s.totalTransferIn + a.transferIn
    totalTransferOut := s.totalTransferOut + a.transferOut
    totalAssigned := s.totalAssigned + a.assigned
    totalExpended := s.totalExpended + a.expended
    totalAvailable := s.totalAvailable + a.available }

/-- The summary computed over the matched Asset list: `totalAssets` is the
list length (line 297), the other fields accumulate over the `forEach`. -/
def computeSummary (assets : List Asset) : Summary :=
  assets.foldl addToSummary (initSummary assets.length)

/-- The fresh group created when a type key is first seen (dashboard router
lines 323-332). -/
def initGroup (t : String) : TypeGroup :=
  ⟨t, 0, 0, 0, 0, 0⟩

/-- The per-group increments of the `assets.forEach` (dashboard router lines
334-338). -/
def bumpGroup (g : TypeGroup) (a : Asset) : TypeGroup :=
  { g with
    count := g.count + 1
    openingBalance := g.openingBalance + a.openingBalance
    closingBalance := g.closingBalance + a.closingBalance
    assigned := g.assigned + a.assigned
    available := g.available + a.available }

/-- Record one asset into the `assetsByType` object: update the group with
its type key, or append a fresh one (JS object insertion order, which is
what `Object.values` later exposes). -/
def upsertGroup : List TypeGroup → Asset → List TypeGroup
  | [], a => [bumpGroup (initGroup a.type) a]
  | g :: gs, a =>
    if g.type == a.type then bumpGroup g a :: gs else g :: upsertGroup gs a

/-- `Object.values(assetsByType)` after the `forEach` over the matched
assets (dashboard router lines 309-339, 410). -/
def groupByType (assets : List Asset) : List TypeGroup :=
  assets.foldl upsertGroup []

/-- Insert into a list kept descending on `key` (helper for the Mongo
`sort(\x7b k : -1 \x7d)` model). -/
def insertDesc (key : α → Int) (x : α) : List α → List α
  | [] => [x]
  | y :: ys => if key y ≤ key x then x :: y :: ys else y :: insertDesc key x ys

/-- The Mongo `sort(\x7b k : -1 \x7d)` of a query result: sort descending on
the key. -/
def sortDesc (key : α → Int) : List α → List α
  | [] => []
  | x :: xs => insertDesc key x (sortDesc key xs)

/-- The body of the `GET /api/dashboard` response (dashboard router lines
408-415). -/
structure DashboardData where
  summary : Summary
  assetsByType : List TypeGroup
  recentTransfers : List Transfer
  recentPurchases : List Purchase
  recentAssignments : List Assignment
  recentExpenditures : List Expenditure
deriving Repr

/-- The `GET /api/dashboard` handler (dashboard router lines 270-419): the
summary and per-type groups reduce over `Asset.find(match)`, and the four
recent lists are the first five of each filtered collection sorted
descending on its date key. -/
def dashboardHandler (u : StoredUser) (q : Query) (db : Db) : DashboardData :=
  let matched := db.assets.filter (assetMatches u q)
  { summary := computeSummary matched
    assetsByType := groupByType matched
    recentTransfers :=
      (sortDesc (fun t => t.createdAt)
        (db.transfers.filter (transferMatches u q))).take 5
    recentPurchases :=
      (sortDesc (fun p => p.purchaseDate)
        (db.purchases.filter (purchaseMatches u q))).take 5
    recentAssignments :=
      (sortDesc (fun a => a.startDate)
        (db.assignments.filter (assignmentMatches u q))).take 5
    recentExpenditures :=
      (sortDesc (fun e => e.expenditureDate)
        (db.expenditures.filter (expenditureMatches u q))).take 5 }

/-- Modelled from the spec: the `middleware/baseAccess` module is required
by the dashboard routes but absent from the source tree. Per §4.2
(`scopeToBase`), a BaseCommander attempting to access a different base than
their `assignedBase` fails with `Forbidden`; other roles pass. `true` means
the request may proceed to the handler. -/
def baseAccess (u : StoredUser) (q : Query) : Bool :=
  if u.role = Role.BaseCommander then
    match q.base with
    | some b => u.assignedBase == some b
    | none => true
  else true

/-- Response of `GET /api/dashboard` after the middleware chain. -/
inductive DashboardResponse where
  | ok (d : DashboardData)
  | forbidden
deriving Repr

/-- `GET /api/dashboard` as seen by the client: the `baseAccess` middleware
(modelled from the spec) then the handler. -/
def getDashboard (u : StoredUser) (q : Query) (db : Db) : DashboardResponse :=
  if baseAccess u q then .ok (dashboardHandler u q db) else .forbidden

/-! Helper notions and lemmas. -/

/-- A list is sorted newest-first on a key. -/
def SortedDescBy (key : α → Int) (l : List α) : Prop :=
  l.Pairwise (fun a b => key b ≤ key a)

/-- Sum of a numeric field over a list of assets. -/
def sumOf (f : Asset → Int) (l : List Asset) : Int :=
  (l.map f).sum

theorem mem_insertDesc (key : α → Int) (x : α) (l : List α) (a : α) :
    a ∈ insertDesc key x l ↔ a = x ∨ a ∈ l := by
  induction l with
  | nil => simp [insertDesc]
  | cons y ys ih =>
    simp only [insertDesc]
    by_cases h : key y ≤ key x
    · simp [h]
    · simp [h, ih]
      tauto

theorem mem_sortDesc (key : α → Int) (l : List α) (a : α) :
    a ∈ sortDesc key l ↔ a ∈ l := by
  induction l with
  | nil => simp [sortDesc]
  | cons x xs ih =>
    simp [sortDesc, mem_insertDesc, ih]

theorem sortedDescBy_insertDesc (key : α → Int) (x : α) (l : List α)
    (h : SortedDescBy key l) : SortedDescBy key (insertDesc key x l) := by
  induction l with
  | nil => simp [insertDesc, SortedDescBy]
  | cons y ys ih =>
    simp only [SortedDescBy, List.pairwise_cons] at h
    by_cases hxy : key y ≤ key x
    · simp only [insertDesc, hxy, if_pos]
      refine List.Pairwise.cons ?_ (List.Pairwise.cons h.1 h.2)
      intro z hz
      rcases List.mem_cons.mp hz with hz | hz
      · subst hz; exact hxy
      · exact le_trans (h.1 z hz) hxy
    · simp only [insertDesc, hxy, if_neg, not_false_iff]
      refine List.Pairwise.cons ?_ (ih h.2)
      intro z hz
      rcases (mem_insertDesc key x ys z).mp hz with hz | hz
      · subst hz; exact le_of_not_le hxy
      · exact h.1 z hz

theorem sortedDescBy_sortDesc (key : α → Int) (l : List α) :
    SortedDescBy key (sortDesc key l) := by
  induction l with
  | nil => exact List.Pairwise.nil
  | cons x xs ih => exact sortedDescBy_insertDesc key x _ ih

theorem sortedDescBy_take (key : α → Int) (l : List α) (n : Nat)
    (h : SortedDescBy key l) : SortedDescBy key (l.take n) :=
  List.Pairwise.sublist (List.take_sublist n l) h

theorem mem_take_sortDesc_filter (key : α → Int) (p : α → Bool)
    (l : List α) (n : Nat) (a : α)
    (h : a ∈ (sortDesc key (l.filter p)).take n) : a ∈ l ∧ p a = true := by
  have h1 : a ∈ sortDesc key (l.filter p) := List.take_subset n _ h
  have h2 : a ∈ l.filter p := (mem_sortDesc key _ a).mp h1
  exact ⟨(List.mem_filter.mp h2).1, (List.mem_filter.mp h2).2⟩

/-- Accumulating a list into a summary adds the field sums to the
accumulator, field by field. -/
theorem foldl_addToSummary (l : List Asset) (s : Summary) :
    (l.foldl addToSummary s).totalAvailable
      = s.totalAvailable + sumOf (fun a => a.available) l ∧
    (l.foldl addToSummary s).totalClosingBalance
      = s.totalClosingBalance + sumOf (fun a => a.closingBalance) l ∧
    (l.foldl addToSummary s).totalAssigned
      = s.totalAssigned + sumOf (fun a => a.assigned) l := by
  induction l generalizing s with
  | nil => simp [sumOf]
  | cons a l ih =>
    simp only [List.foldl_cons]
    obtain ⟨h1, h2, h3⟩ := ih (addToSummary s a)
    refine ⟨?_, ?_, ?_⟩
    · rw [h1]; simp [addToSummary, sumOf]; ring
    · rw [h2]; simp [addToSummary, sumOf]; ring
    · rw [h3]; simp [addToSummary, sumOf]; ring

theorem computeSummary_totalAvailable (l : List Asset) :
    (computeSummary l).totalAvailable = sumOf (fun a => a.available) l := by
  have h := foldl_addToSummary l (initSummary l.length)
  simpa [computeSummary, initSummary] using h.1

theorem computeSummary_totalClosingBalance (l : List Asset) :
    (computeSummary l).totalClosingBalance
      = sumOf (fun a => a.closingBalance) l := by
  have h := foldl_addToSummary l (initSummary l.length)
  simpa [computeSummary, initSummary] using h.2.1

theorem computeSummary_totalAssigned (l : List Asset) :
    (computeSummary l).totalAssigned = sumOf (fun a => a.assigned) l := by
  have h := foldl_addToSummary l (initSummary l.length)
  simpa [computeSummary, initSummary] using h.2.2

/-- Sum of the `count` fields over the groups. -/
def countSum (gs : List TypeGroup) : Nat :=
  (gs.map (fun g => g.count)).sum

/-- Total count recorded for one type key across the groups. -/
def countType (t : String) (gs : List TypeGroup) : Nat :=
  ((gs.filter (fun g => g.type == t)).map (fun g => g.count)).sum

/-- The type keys of the groups, in order. -/
def typesOf (gs : List TypeGroup) : List String :=
  gs.map (fun g => g.type)

theorem countSum_upsertGroup (gs : List TypeGroup) (a : Asset) :
    countSum (upsertGroup gs a) = countSum gs + 1 := by
  induction gs with
  | nil => simp [upsertGroup, countSum, bumpGroup, initGroup]
  | cons g gs ih =>
    by_cases h : g.type == a.type
    · simp [upsertGroup, h, countSum, bumpGroup]
      omega
    · simp only [upsertGroup, h, Bool.false_eq_true, if_neg, not_false_iff]
      simp only [countSum, List.map_cons, List.sum_cons] at ih ⊢
      omega

theorem mem_typesOf_upsertGroup (gs : List TypeGroup) (a : Asset)
    (t : String) :
    t ∈ typesOf (upsertGroup gs a) ↔ t ∈ typesOf gs ∨ t = a.type := by
  induction gs with
  | nil => simp [upsertGroup, typesOf, bumpGroup, initGroup, eq_comm]
  | cons g gs ih =>
    by_cases h : g.type == a.type
    · have hg : g.type = a.type := by simpa using h
      simp [upsertGroup, h, typesOf, bumpGroup, hg, eq_comm]
      tauto
    · simp only [upsertGroup, h, Bool.false_eq_true, if_neg, not_false_iff]
      simp only [typesOf, List.map_cons, List.mem_cons] at ih ⊢
      tauto

theorem typesOf_nodup_upsertGroup (gs : List TypeGroup) (a : Asset)
    (h : (typesOf gs).Nodup) : (typesOf (upsertGroup gs a)).Nodup := by
  induction gs with
  | nil => simp [upsertGroup, typesOf]
  | cons g gs ih =>
    simp only [typesOf, List.map_cons, List.nodup_cons] at h
    by_cases hg : g.type == a.type
    · have : typesOf (upsertGroup (g :: gs) a) = typesOf (g :: gs) := by
        simp [upsertGroup, hg, typesOf, bumpGroup]
      rw [this]
      simp only [typesOf, List.map_cons, List.nodup_cons]
      exact h
    · simp only [upsertGroup, hg, Bool.false_eq_true, if_neg, not_false_iff]
      simp only [typesOf, List.map_cons, List.nodup_cons]
      constructor
      · intro hc
        rcases (mem_typesOf_upsertGroup gs a g.type).mp hc with hc | hc
        · exact h.1 hc
        · exact absurd hc (by simpa using hg)
      · exact ih h.2

theorem countType_upsertGroup (gs : List TypeGroup) (a : Asset)
    (t : String) :
    countType t (upsertGroup gs a)
      = countType t gs + (if a.type = t then 1 else 0) := by
  induction gs with
  | nil =>
    by_cases h : a.type = t <;>
      simp [upsertGroup, countType, bumpGroup, initGroup, h]
  | cons g gs ih =>
    by_cases hg : g.type == a.type
    · have hga : g.type = a.type := by simpa using hg
      by_cases ht : a.type = t
      · simp [upsertGroup, hg, countType, bumpGroup, hga, ht]
        omega
      · have : ¬ (g.type == t) = true := by
          simp [hga, ht]
        simp [upsertGroup, hg, countType, bumpGroup, this, ht]
    · simp only [upsertGroup, hg, Bool.false_eq_true, if_neg, not_false_iff]
      by_cases hgt : g.type == t
      · simp only [countType, List.filter_cons, hgt, if_pos, List.map_cons,
          List.sum_cons] at ih ⊢
        omega
      · simp only [countType, List.filter_cons, hgt, Bool.false_eq_true,
          if_neg, not_false_iff] at ih ⊢
        exact ih

theorem countSum_groupByType_aux (l : List Asset) (gs : List TypeGroup) :
    countSum (l.foldl upsertGroup gs) = countSum gs + l.length := by
  induction l generalizing gs with
  | nil => simp
  | cons a l ih =>
    simp only [List.foldl_cons, ih, countSum_upsertGroup, List.length_cons]
    omega

theorem countSum_groupByType (l : List Asset) :
    countSum (groupByType l) = l.length := by
  simpa [countSum] using countSum_groupByType_aux l []

theorem typesOf_nodup_groupByType_aux (l : List Asset)
    (gs : List TypeGroup) (h : (typesOf gs).Nodup) :
    (typesOf (l.foldl upsertGroup gs)).Nodup := by
  induction l generalizing gs with
  | nil => exact h
  | cons a l ih =>
    exact ih (upsertGroup gs a) (typesOf_nodup_upsertGroup gs a h)

theorem typesOf_nodup_groupByType (l : List Asset) :
    (typesOf (groupByType l)).Nodup :=
  typesOf_nodup_groupByType_aux l [] (by simp [typesOf])

theorem countType_groupByType_aux (l : List Asset) (gs : List TypeGroup)
    (t : String) :
    countType t (l.foldl upsertGroup gs)
      = countType t gs + (l.filter (fun a => a.type == t)).length := by
  induction l generalizing gs with
  | nil => simp
  | cons a l ih =>
    simp only [List.foldl_cons, ih, countType_upsertGroup, List.filter_cons]
    by_cases h : a.type = t
    · simp [h]
      omega
    · simp [h]

theorem countType_groupByType (l : List Asset) (t : String) :
    countType t (groupByType l)
      = (l.filter (fun a => a.type == t)).length := by
  simpa [countType] using countType_groupByType_aux l [] t

theorem mem_typesOf_groupByType_aux (l : List Asset) (gs : List TypeGroup)
    (t : String) :
    t ∈ typesOf (l.foldl upsertGroup gs)
      ↔ t ∈ typesOf gs ∨ t ∈ l.map (fun a => a.type) := by
  induction l generalizing gs with
  | nil => simp
  | cons a l ih =>
    simp only [List.foldl_cons, ih, mem_typesOf_upsertGroup, List.map_cons,
      List.mem_cons]
    tauto

theorem mem_typesOf_groupByType (l : List Asset) (t : String) :
    t ∈ typesOf (groupByType l) ↔ t ∈ l.map (fun a => a.type) := by
  simpa [typesOf] using mem_typesOf_groupByType_aux l [] t

theorem resolveSession_saveUser_none (db : List StoredUser)
    (u u' : StoredUser) (t : String) (huname : u'.username = u.username)
    (honly : ∀ v ∈ db, t ∈ v.tokens → v.username = u.username)
    (ht : t ∉ u'.tokens) : resolveSession (saveUser db u') t = none := by
  rw [resolveSession, List.find?_eq_none]
  intro x hx
  simp only [saveUser, List.mem_map] at hx
  obtain ⟨v, hv, rfl⟩ := hx
  by_cases h : v.username == u'.username
  · simp only [h, if_pos]
    simpa using ht
  · simp only [h, Bool.false_eq_true, if_neg, not_false_iff]
    simp only [decide_eq_true_eq]
    intro hc
    exact (show v.username ≠ u'.username by simpa using h)
      ((honly v hv hc).trans huname.symm)

theorem resolveSession_saveUser_mem (db : List StoredUser)
    (u u' : StoredUser) (s : String) (hmem : u ∈ db)
    (huname : u'.username = u.username)
    (hothers : ∀ v ∈ db, v.username ≠ u.username → s ∉ v.tokens)
    (hs : s ∈ u'.tokens) : resolveSession (saveUser db u') s = some u' := by
  induction db with
  | nil => exact absurd hmem (List.not_mem_nil u)
  | cons h tl ih =>
    by_cases hh : h.username == u'.username
    · have hsave : saveUser (h :: tl) u'
          = u' :: tl.map (fun x => if x.username == u'.username then u' else x) := by
        unfold saveUser
        rw [List.map_cons, if_pos hh]
      rw [resolveSession, hsave, List.find?_cons_of_pos]
      simpa using hs
    · have hne : h.username ≠ u.username := by
        rw [← huname]; simpa using hh
      have hnot : s ∉ h.tokens :=
        hothers h (List.mem_cons_self h tl) hne
      have hu_tl : u ∈ tl := by
        rcases List.mem_cons.mp hmem with rfl | hm
        · exact absurd rfl hne
        · exact hm
      have ih' := ih hu_tl
        (fun v hv hvne => hothers v (List.mem_cons_of_mem h hv) hvne)
      have hsave : saveUser (h :: tl) u' = h :: saveUser tl u' := by
        unfold saveUser
        rw [List.map_cons, if_neg hh]
      rw [resolveSession, hsave, List.find?_cons_of_neg]
      · exact ih'
      · simpa using hnot

/-! Concrete fixtures used by witnesses and counterexamples. -/

/-- A concrete Admin user whose stored password is the plain string
`plain`. -/
def aliceUser : StoredUser :=
  { username := "alice", password := "plain", email := "alice@example.com",
    fullName := "Alice Army", role := Role.Admin, assignedBase := none,
    active := true, tokens := ["t1", "t2"] }

/-- A concrete BaseCommander assigned to `Base-A`. -/
def bcUser : StoredUser :=
  { username := "bob", password := "plain", email := "bob@example.com",
    fullName := "Bob Base", role := Role.BaseCommander,
    assignedBase := some "Base-A", active := true, tokens := ["t1"] }

/-- A dashboard query with no filters. -/
def emptyQuery : Query := ⟨none, none, none, none⟩

/-- A dashboard query requesting `Base-X`. -/
def baseXQuery : Query := ⟨some "Base-X", none, none, none⟩

/-- A dashboard query with only a date range. -/
def dateQuery : Query := ⟨none, none, some 10, some 20⟩

/-- Empty domain collections. -/
def emptyDb : Db := ⟨[], [], [], [], []⟩

/-- A model of `bcrypt.compare` that reports a mismatch. -/
def bcFalse : String → String → Except String Bool := fun _ _ => .ok false

/-- A model of `bcrypt.compare` that throws (the stored field is not a
valid bcrypt hash). -/
def bcThrow : String → String → Except String Bool :=
  fun _ _ => .error "Illegal arguments: undefined, string"

/-- A model of `bcrypt.compare` for fixtures whose stored password is the
plain text itself. -/
def bcPlain : String → String → Except String Bool := fun p h => .ok (p == h)

/-- A model of the pre-save password hashing hook. -/
def hashTag : String → String := fun s => String.append "h:" s

/-- An Asset created at time 0, outside `dateQuery`'s range. -/
def oldAsset : Asset :=
  { base := "Base-A", type := "Vehicle", openingBalance := 10,
    closingBalance := 12, purchases := 2, transferIn := 0, transferOut := 0,
    assigned := 3, expended := 0, available := 9, createdAt := 0 }

/-- Collections holding only `oldAsset`. -/
def oldAssetDb : Db := ⟨[oldAsset], [], [], [], []⟩

/-- A transfer out of `Base-A`. -/
def transferA : Transfer :=
  { assetName := "Truck", fromBase := "Base-A", toBase := "Base-B",
    quantity := 1, status := "Completed", createdAt := 5 }

/-- Collections holding only `transferA`. -/
def transferDb : Db := ⟨[], [transferA], [], [], []⟩

/-! Claim theorems. -/

/-- C1: a BaseCommander requesting `GET /api/dashboard?base=X` with X
different from their assignedBase never receives data scoped to X: with the
`baseAccess` middleware (modelled from the spec, the module being absent
from the source tree) the request fails with Forbidden, which is the
claim's permitted alternative. -/
theorem c1_basecommander_other_base_forbidden (u : StoredUser) (q : Query)
    (db : Db) (x b : String) (hrole : u.role = Role.BaseCommander)
    (hq : q.base = some x) (hab : u.assignedBase = some b) (hne : x ≠ b) :
    getDashboard u q db = .forbidden := by
  unfold getDashboard
  have hba : baseAccess u q = false := by
    unfold baseAccess
    rw [if_pos hrole, hq, hab]
    simp
    exact fun hc => hne hc.symm
  rw [hba]
  simp

/-- C1 witness: a commander of `Base-A` asking for `Base-X` is refused. -/
theorem c1_witness : getDashboard bcUser baseXQuery emptyDb = .forbidden :=
  c1_basecommander_other_base_forbidden bcUser baseXQuery emptyDb
    "Base-X" "Base-A" rfl rfl rfl (by decide)

/-- C2: a login with an existing active username and a password whose hash
comparison reports a mismatch is answered 401 with message
`Invalid username or password`, and the user collection — hence every token
set — is left untouched. -/
theorem c2_login_wrong_password_rejected
    (bc : String → String → Except String Bool) (newToken : String)
    (logSave : Except String Unit) (db : List StoredUser)
    (username password : String) (u : StoredUser)
    (hu : username ≠ "") (hp : password ≠ "")
    (hfind : db.find? (fun v => v.username == username) = some u)
    (hactive : u.active = true)
    (hbc : bc password u.password = .ok false) :
    loginRoute bc newToken logSave db username password
      = (db, .unauthorized "Authentication failed"
          "Invalid username or password") := by
  unfold loginRoute
  have hguard : (username == "" || password == "") = false := by
    simp [hu, hp]
  rw [hguard]
  simp only [Bool.false_eq_true, if_neg, not_false_iff]
  rw [hfind]
  have hcred : findByCredentials bc db username password
      = .error "Invalid username or password" := by
    unfold findByCredentials
    rw [hfind]
    simp [hactive, hbc]
  rw [hcred]

/-- C2 witness: alice exists and is active, the comparison says no. -/
theorem c2_witness :
    loginRoute bcFalse "tok9" (.ok ()) [aliceUser] "alice" "plain"
      = ([aliceUser], .unauthorized "Authentication failed"
          "Invalid username or password") :=
  c2_login_wrong_password_rejected bcFalse "tok9" (.ok ()) [aliceUser]
    "alice" "plain" aliceUser (by decide) (by decide) rfl rfl rfl

/-- C10: when the bcrypt comparison itself throws, `findByCredentials`
falls back to comparing the supplied password with the stored password
field for exact string equality, so (for an existing active user)
authentication succeeds precisely when the two strings are equal. -/
theorem c10_bcrypt_throw_falls_back_to_string_equality
    (bc : String → String → Except String Bool) (db : List StoredUser)
    (username password : String) (u : StoredUser) (e : String)
    (hfind : db.find? (fun v => v.username == username) = some u)
    (hactive : u.active = true)
    (hthrow : bc password u.password = .error e) :
    findByCredentials bc db username password = .ok u
      ↔ password = u.password := by
  unfold findByCredentials
  rw [hfind]
  by_cases hp : password = u.password
  · subst hp
    simp [hactive, hthrow]
  · simp [hactive, hthrow, hp]

/-- C10 witness: alice's stored password is plain text, bcrypt throws, and
login by direct equality succeeds exactly on the right string. -/
theorem c10_witness :
    (findByCredentials bcThrow [aliceUser] "alice" "plain" = .ok aliceUser
      ↔ "plain" = aliceUser.password) ∧
    findByCredentials bcThrow [aliceUser] "alice" "plain" = .ok aliceUser :=
  ⟨c10_bcrypt_throw_falls_back_to_string_equality bcThrow [aliceUser]
      "alice" "plain" aliceUser "Illegal arguments: undefined, string"
      rfl rfl rfl,
   by rfl⟩

/-- C3 counterexample: in the logout route the `ActivityLog` save is not
wrapped in its own try/catch, so a log failure reaches the outer catch and
the route answers 500 instead of its normal success response — refuting the
claim that a log failure never causes an authentication route to return an
error. -/
theorem c3_counterexample :
    (logoutRoute aliceUser "t1" (.error "log db down") [aliceUser]).2
      = .serverError "log db down" := rfl

/-- C3 amended: only the login route swallows `ActivityLog` failures (its
log writes sit in inner try/catch blocks), so login still returns its
normal success response; in logout, logout-all, register and
change-password the log write is unguarded, so its failure makes the route
return an error response (500 for the logout routes, 400 for register and
change-password) even though the primary state change has already been
persisted. -/
theorem c3_amended_log_failure_per_route
    (bc : String → String → Except String Bool) (newToken : String)
    (db : List StoredUser) (username password : String) (u : StoredUser)
    (e : String) (hash : String → String) (newUser v : StoredUser)
    (t : String) (cp np : String)
    (hu : username ≠ "") (hp : password ≠ "")
    (hfind : db.find? (fun w => w.username == username) = some u)
    (hactive : u.active = true)
    (hbc : bc password u.password = .ok true)
    (hcp : findByCredentials bc db username cp = .ok u) :
    loginRoute bc newToken (.error e) db username password
      = loginRoute bc newToken (.ok ()) db username password ∧
    (loginRoute bc newToken (.error e) db username password).2
      = .ok { u with tokens := u.tokens ++ [newToken] } newToken
          "Login successful" ∧
    logoutRoute v t (.error e) db
      = (saveUser db (logout v t), .serverError e) ∧
    logoutAllRoute v (.error e) db
      = (saveUser db (logoutAll v), .serverError e) ∧
    registerRoute (.ok ()) (.error e) newUser db
      = (db ++ [newUser], .clientError e) ∧
    changePasswordRoute bc hash (.error e) db username cp np
      = (saveUser db { u with password := hash np },
         .clientError "Password change failed" e) := by
  have hcred : findByCredentials bc db username password = .ok u := by
    unfold findByCredentials
    rw [hfind]
    simp [hactive, hbc]
  refine ⟨rfl, ?_, rfl, rfl, rfl, ?_⟩
  · unfold loginRoute
    have hguard : (username == "" || password == "") = false := by
      simp [hu, hp]
    rw [hguard]
    simp only [Bool.false_eq_true, if_neg, not_false_iff]
    rw [hfind, hcred]
  · unfold changePasswordRoute
    rw [hcp]

/-- C3 amended witness: alice logs in with the matching plain password
while the log store is down, and the other routes fail as described. -/
theorem c3_amended_witness :
    loginRoute bcPlain "tok9" (.error "log db down") [aliceUser]
        "alice" "plain"
      = loginRoute bcPlain "tok9" (.ok ()) [aliceUser] "alice" "plain" ∧
    (loginRoute bcPlain "tok9" (.error "log db down") [aliceUser]
        "alice" "plain").2
      = .ok { aliceUser with tokens := aliceUser.tokens ++ ["tok9"] }
          "tok9" "Login successful" ∧
    logoutRoute bcUser "t1" (.error "log db down") [aliceUser]
      = (saveUser [aliceUser] (logout bcUser "t1"),
         .serverError "log db down") ∧
    logoutAllRoute bcUser (.error "log db down") [aliceUser]
      = (saveUser [aliceUser] (logoutAll bcUser),
         .serverError "log db down") ∧
    registerRoute (.ok ()) (.error "log db down") bcUser [aliceUser]
      = ([aliceUser] ++ [bcUser], .clientError "log db down") ∧
    changePasswordRoute bcPlain hashTag (.error "log db down") [aliceUser]
        "alice" "plain" "newpw"
      = (saveUser [aliceUser] { aliceUser with password := hashTag "newpw" },
         .clientError "Password change failed" "log db down") :=
  c3_amended_log_failure_per_route bcPlain "tok9" [aliceUser] "alice"
    "plain" aliceUser "log db down" hashTag bcUser bcUser "t1" "plain"
    "newpw" (by decide) (by decide) rfl rfl rfl rfl

/-- C8: logout-all empties the caller's live token set, and a token that
was valid for that user beforehand no longer resolves to any session
immediately after (given that, per the JWT construction, no other user's
live set holds the same token string). `resolveSession` is modelled from
the spec, the auth middleware being absent from the source tree. -/
theorem c8_logout_all_invalidates_tokens (u : StoredUser)
    (db : List StoredUser) (ls : Except String Unit) (t : String)
    (ht : t ∈ u.tokens)
    (honly : ∀ v ∈ db, t ∈ v.tokens → v.username = u.username) :
    (logoutAll u).tokens = [] ∧
    resolveSession (logoutAllRoute u ls db).1 t = none := by
  refine ⟨rfl, ?_⟩
  have h1 : (logoutAllRoute u ls db).1 = saveUser db (logoutAll u) := by
    cases ls <;> rfl
  rw [h1]
  exact resolveSession_saveUser_none db u (logoutAll u) t rfl honly
    (by simp [logoutAll])

/-- C8 witness: after bob's logout-all, his token `t1` resolves to no
session. -/
theorem c8_witness :
    (logoutAll bcUser).tokens = [] ∧
    resolveSession (logoutAllRoute bcUser (.ok ()) [bcUser]).1 "t1"
      = none :=
  c8_logout_all_invalidates_tokens bcUser [bcUser] (.ok ()) "t1"
    (by decide) (by decide)

/-- C9: logout removes exactly the presented token from the caller's token
set: the new token set is the old one with the entries equal to that token
filtered out, the presented token is gone, every other token survives and
still resolves the user's session, and every other field of the user record
is unchanged. -/
theorem c9_logout_removes_only_presented_token (u : StoredUser)
    (t : String) (db : List StoredUser) (ls : Except String Unit)
    (s : String) (hmem : u ∈ db)
    (honly : ∀ v ∈ db, v.username ≠ u.username → s ∉ v.tokens)
    (hs : s ∈ u.tokens) (hst : s ≠ t) :
    (logout u t).tokens = u.tokens.filter (fun tk => tk != t) ∧
    t ∉ (logout u t).tokens ∧
    (∀ x ∈ u.tokens, x ≠ t → x ∈ (logout u t).tokens) ∧
    (logout u t).username = u.username ∧
    (logout u t).password = u.password ∧
    (logout u t).email = u.email ∧
    (logout u t).fullName = u.fullName ∧
    (logout u t).role = u.role ∧
    (logout u t).assignedBase = u.assignedBase ∧
    (logout u t).active = u.active ∧
    resolveSession (logoutRoute u t ls db).1 s = some (logout u t) := by
  refine ⟨rfl, ?_, ?_, rfl, rfl, rfl, rfl, rfl, rfl, rfl, ?_⟩
  · simp [logout, List.mem_filter]
  · intro x hx hxt
    simp [logout, List.mem_filter, hx, hxt]
  · have h1 : (logoutRoute u t ls db).1 = saveUser db (logout u t) := by
      cases ls <;> rfl
    rw [h1]
    exact resolveSession_saveUser_mem db u (logout u t) s hmem rfl honly
      (by simp [logout, List.mem_filter, hs, hst])

/-- C9 witness: alice presents `t1`; `t2` survives and still resolves her
session. -/
theorem c9_witness :
    (logout aliceUser "t1").tokens
      = aliceUser.tokens.filter (fun tk => tk != "t1") ∧
    "t1" ∉ (logout aliceUser "t1").tokens ∧
    "t2" ∈ (logout aliceUser "t1").tokens ∧
    resolveSession (logoutRoute aliceUser "t1" (.ok ()) [aliceUser]).1 "t2"
      = some (logout aliceUser "t1") := by
  have h := c9_logout_removes_only_presented_token aliceUser "t1"
    [aliceUser] (.ok ()) "t2" (by decide) (by decide) (by decide)
    (by decide)
  exact ⟨h.1, h.2.1, h.2.2.1 "t2" (by decide) (by decide), h.2.2.2.2.2.2.2.2.2.2⟩

/-- A query with its date range removed. -/
def clearDates (q : Query) : Query := { q with startDate := none, endDate := none }

/-- C4 counterexample: `dateMatch` is never merged into the Asset `match`
object, so an asset created at time 0 — outside the requested range
10..20 — still contributes to every summary field, refuting the claim that
the summary sums only over the date-filtered set. -/
theorem c4_counterexample :
    dateOk dateQuery oldAsset.createdAt = false ∧
    (dashboardHandler aliceUser dateQuery oldAssetDb).summary.totalAssets
      = 1 ∧
    (dashboardHandler aliceUser dateQuery oldAssetDb).summary.totalAvailable
      = 9 := by
  refine ⟨rfl, rfl, rfl⟩

/-- C4 amended: the startDate/endDate filter is applied only to the four
recent-record queries; the Asset summary and the assetsByType grouping are
computed from the base and assetType filters alone, unchanged by any date
range, while every record in the recent lists does satisfy the date
range. -/
theorem c4_amended_dates_scope_only_recent_lists (u : StoredUser)
    (q : Query) (db : Db) :
    (dashboardHandler u q db).summary
      = (dashboardHandler u (clearDates q) db).summary ∧
    (dashboardHandler u q db).assetsByType
      = (dashboardHandler u (clearDates q) db).assetsByType ∧
    (∀ t ∈ (dashboardHandler u q db).recentTransfers,
      dateOk q t.createdAt = true) ∧
    (∀ p ∈ (dashboardHandler u q db).recentPurchases,
      dateOk q p.createdAt = true) ∧
    (∀ a ∈ (dashboardHandler u q db).recentAssignments,
      dateOk q a.createdAt = true) ∧
    (∀ x ∈ (dashboardHandler u q db).recentExpenditures,
      dateOk q x.createdAt = true) := by
  refine ⟨rfl, rfl, ?_, ?_, ?_, ?_⟩
  · intro r hr
    have hr' : r ∈ (sortDesc (fun tr : Transfer => tr.createdAt)
        (db.transfers.filter (transferMatches u q))).take 5 := hr
    have h := (mem_take_sortDesc_filter _ _ _ _ r hr').2
    simp only [transferMatches, Bool.and_eq_true] at h
    exact h.1
  · intro r hr
    have hr' : r ∈ (sortDesc (fun p : Purchase => p.purchaseDate)
        (db.purchases.filter (purchaseMatches u q))).take 5 := hr
    have h := (mem_take_sortDesc_filter _ _ _ _ r hr').2
    simp only [purchaseMatches, Bool.and_eq_true] at h
    exact h.1.1
  · intro r hr
    have hr' : r ∈ (sortDesc (fun a : Assignment => a.startDate)
        (db.assignments.filter (assignmentMatches u q))).take 5 := hr
    have h := (mem_take_sortDesc_filter _ _ _ _ r hr').2
    simp only [assignmentMatches, Bool.and_eq_true] at h
    exact h.1.1
  · intro r hr
    have hr' : r ∈ (sortDesc (fun e : Expenditure => e.expenditureDate)
        (db.expenditures.filter (expenditureMatches u q))).take 5 := hr
    have h := (mem_take_sortDesc_filter _ _ _ _ r hr').2
    simp only [expenditureMatches, Bool.and_eq_true] at h
    exact h.1.1

/-- C5: the dashboard summary's totalAvailable is, unconditionally, the sum
of `available` over the matched Asset set; and when every matched asset
satisfies the declared invariant `available = closingBalance − assigned`
(expected but not enforced by the code) it also equals the sum of
closingBalance minus the sum of assigned. -/
theorem c5_totalAvailable_sum (u : StoredUser) (q : Query) (db : Db) :
    (dashboardHandler u q db).summary.totalAvailable
      = sumOf (fun a => a.available) (db.assets.filter (assetMatches u q)) ∧
    ((∀ a ∈ db.assets.filter (assetMatches u q),
        a.available = a.closingBalance - a.assigned) →
      (dashboardHandler u q db).summary.totalAvailable
        = sumOf (fun a => a.closingBalance)
            (db.assets.filter (assetMatches u q))
          - sumOf (fun a => a.assigned)
              (db.assets.filter (assetMatches u q))) := by
  have key : ∀ (l : List Asset),
      (∀ a ∈ l, a.available = a.closingBalance - a.assigned) →
      sumOf (fun a => a.available) l
        = sumOf (fun a => a.closingBalance) l
          - sumOf (fun a => a.assigned) l := by
    intro l
    induction l with
    | nil => intro _; simp [sumOf]
    | cons a l ih =>
      intro hl
      have ha := hl a (List.mem_cons_self a l)
      have ihh := ih (fun x hx => hl x (List.mem_cons_of_mem a hx))
      simp only [sumOf, List.map_cons, List.sum_cons] at ihh ⊢
      rw [ha, ihh]
      ring
  have h1 : (dashboardHandler u q db).summary.totalAvailable
      = sumOf (fun a => a.available) (db.assets.filter (assetMatches u q)) :=
    computeSummary_totalAvailable (db.assets.filter (assetMatches u q))
  exact ⟨h1, fun hinv => h1.trans (key _ hinv)⟩

/-- C5 witness: one matched asset satisfying the invariant, 12 − 3 = 9;
the invariant antecedent of the second conjunct is discharged concretely. -/
theorem c5_witness :
    (dashboardHandler aliceUser emptyQuery oldAssetDb).summary.totalAvailable
      = sumOf (fun a => a.available)
          (oldAssetDb.assets.filter (assetMatches aliceUser emptyQuery)) ∧
    (dashboardHandler aliceUser emptyQuery oldAssetDb).summary.totalAvailable
      = sumOf (fun a => a.closingBalance)
          (oldAssetDb.assets.filter (assetMatches aliceUser emptyQuery))
        - sumOf (fun a => a.assigned)
            (oldAssetDb.assets.filter (assetMatches aliceUser emptyQuery)) :=
  ⟨(c5_totalAvailable_sum aliceUser emptyQuery oldAssetDb).1,
   (c5_totalAvailable_sum aliceUser emptyQuery oldAssetDb).2 (by decide)⟩

/-- C6: the assetsByType grouping is a partition of the matched Asset set:
the group counts sum to the matched size, the type keys are pairwise
distinct, the count recorded under each type equals the number of matched
assets of that type, groups exist exactly for the types present, and an
empty matched set yields the all-zero summary and no groups. -/
theorem c6_assetsByType_is_partition (u : StoredUser) (q : Query)
    (db : Db) :
    countSum (dashboardHandler u q db).assetsByType
      = (db.assets.filter (assetMatches u q)).length ∧
    (typesOf (dashboardHandler u q db).assetsByType).Nodup ∧
    (∀ t, countType t (dashboardHandler u q db).assetsByType
      = ((db.assets.filter (assetMatches u q)).filter
          (fun a => a.type == t)).length) ∧
    (∀ g ∈ (dashboardHandler u q db).assetsByType,
      g.type ∈ (db.assets.filter (assetMatches u q)).map
        (fun a => a.type)) ∧
    (∀ a ∈ db.assets.filter (assetMatches u q),
      ∃ g ∈ (dashboardHandler u q db).assetsByType, g.type = a.type) ∧
    (db.assets.filter (assetMatches u q) = [] →
      (dashboardHandler u q db).summary = initSummary 0 ∧
      (dashboardHandler u q db).assetsByType = []) := by
  have hgs : (dashboardHandler u q db).assetsByType
      = groupByType (db.assets.filter (assetMatches u q)) := rfl
  refine ⟨?_, ?_, ?_, ?_, ?_, ?_⟩
  · rw [hgs]
    exact countSum_groupByType _
  · rw [hgs]
    exact typesOf_nodup_groupByType _
  · intro t
    rw [hgs]
    exact countType_groupByType _ t
  · intro g hg
    rw [hgs] at hg
    have hm : g.type ∈ typesOf (groupByType
        (db.assets.filter (assetMatches u q))) :=
      List.mem_map_of_mem (fun g => g.type) hg
    exact (mem_typesOf_groupByType _ _).mp hm
  · intro a ha
    have hm : a.type ∈ typesOf (groupByType
        (db.assets.filter (assetMatches u q))) :=
      (mem_typesOf_groupByType _ _).mpr
        (List.mem_map_of_mem (fun a => a.type) ha)
    rw [hgs]
    unfold typesOf at hm
    obtain ⟨g, hg, hgt⟩ := List.mem_map.mp hm
    exact ⟨g, hg, hgt⟩
  · intro hempty
    constructor
    · show computeSummary (db.assets.filter (assetMatches u q))
        = initSummary 0
      rw [hempty]
      rfl
    · rw [hgs, hempty]
      rfl

/-- C6 witness: with no assets at all, the summary is all zero and the
grouping is empty. -/
theorem c6_witness :
    countSum (dashboardHandler aliceUser emptyQuery emptyDb).assetsByType
      = 0 ∧
    (dashboardHandler aliceUser emptyQuery emptyDb).summary
      = initSummary 0 ∧
    (dashboardHandler aliceUser emptyQuery emptyDb).assetsByType = [] := by
  have h := c6_assetsByType_is_partition aliceUser emptyQuery emptyDb
  have he := h.2.2.2.2.2 rfl
  exact ⟨by simpa using h.1, he.1, he.2⟩

/-- C7: with an effective base B, every returned recent transfer touches B
on its from- or to-side, and all four recent lists hold at most five
records, ordered newest-first on their respective date keys. -/
theorem c7_recent_lists_bounded_scoped_sorted (u : StoredUser) (q : Query)
    (db : Db) (B : String) (hB : effectiveListBase u q = some B) :
    (dashboardHandler u q db).recentTransfers.length ≤ 5 ∧
    (∀ t ∈ (dashboardHandler u q db).recentTransfers,
      t.fromBase = B ∨ t.toBase = B) ∧
    SortedDescBy (fun t => t.createdAt)
      (dashboardHandler u q db).recentTransfers ∧
    (dashboardHandler u q db).recentPurchases.length ≤ 5 ∧
    SortedDescBy (fun p => p.purchaseDate)
      (dashboardHandler u q db).recentPurchases ∧
    (dashboardHandler u q db).recentAssignments.length ≤ 5 ∧
    SortedDescBy (fun a => a.startDate)
      (dashboardHandler u q db).recentAssignments ∧
    (dashboardHandler u q db).recentExpenditures.length ≤ 5 ∧
    SortedDescBy (fun e => e.expenditureDate)
      (dashboardHandler u q db).recentExpenditures := by
  refine ⟨?_, ?_, ?_, ?_, ?_, ?_, ?_, ?_, ?_⟩
  · show ((sortDesc (fun t => t.createdAt)
      (db.transfers.filter (transferMatches u q))).take 5).length ≤ 5
    rw [List.length_take]
    exact min_le_left _ _
  · intro t ht
    have ht' : t ∈ (sortDesc (fun tr : Transfer => tr.createdAt)
        (db.transfers.filter (transferMatches u q))).take 5 := ht
    have h := (mem_take_sortDesc_filter _ _ _ _ t ht').2
    simp only [transferMatches, hB, Bool.and_eq_true, Bool.or_eq_true,
      beq_iff_eq] at h
    exact h.2
  · show SortedDescBy (fun t : Transfer => t.createdAt)
      ((sortDesc (fun t : Transfer => t.createdAt)
        (db.transfers.filter (transferMatches u q))).take 5)
    exact sortedDescBy_take _ _ 5 (sortedDescBy_sortDesc _ _)
  · show ((sortDesc (fun p : Purchase => p.purchaseDate)
      (db.purchases.filter (purchaseMatches u q))).take 5).length ≤ 5
    rw [List.length_take]
    exact min_le_left _ _
  · show SortedDescBy (fun p : Purchase => p.purchaseDate)
      ((sortDesc (fun p : Purchase => p.purchaseDate)
        (db.purchases.filter (purchaseMatches u q))).take 5)
    exact sortedDescBy_take _ _ 5 (sortedDescBy_sortDesc _ _)
  · show ((sortDesc (fun a : Assignment => a.startDate)
      (db.assignments.filter (assignmentMatches u q))).take 5).length ≤ 5
    rw [List.length_take]
    exact min_le_left _ _
  · show SortedDescBy (fun a : Assignment => a.startDate)
      ((sortDesc (fun a : Assignment => a.startDate)
        (db.assignments.filter (assignmentMatches u q))).take 5)
    exact sortedDescBy_take _ _ 5 (sortedDescBy_sortDesc _ _)
  · show ((sortDesc (fun e : Expenditure => e.expenditureDate)
      (db.expenditures.filter (expenditureMatches u q))).take 5).length ≤ 5
    rw [List.length_take]
    exact min_le_left _ _
  · show SortedDescBy (fun e : Expenditure => e.expenditureDate)
      ((sortDesc (fun e : Expenditure => e.expenditureDate)
        (db.expenditures.filter (expenditureMatches u q))).take 5)
    exact sortedDescBy_take _ _ 5 (sortedDescBy_sortDesc _ _)

/-- C7 witness: a commander of `Base-A` with no query filters has effective
base `Base-A`; the bounds and ordering hold on a one-transfer store. -/
theorem c7_witness :
    (dashboardHandler bcUser emptyQuery transferDb).recentTransfers.length
      ≤ 5 ∧
    SortedDescBy (fun t => t.createdAt)
      (dashboardHandler bcUser emptyQuery transferDb).recentTransfers ∧
    (∀ t ∈ (dashboardHandler bcUser emptyQuery transferDb).recentTransfers,
      t.fromBase = "Base-A" ∨ t.toBase = "Base-A") := by
  have h := c7_recent_lists_bounded_scoped_sorted bcUser emptyQuery
    transferDb "Base-A" (by rfl)
  exact ⟨h.1, h.2.2.1, h.2.1⟩

end MMS
